import Mathlib

/-!
Shallow embedding of the MIDI note/chord file generators
(`create_notes.py`, `create_chords.py` and the fixed-table generator scripts)
and proofs of the specification's testable properties over it.

Strings are modelled as Lean `String`/`List Char`; Python integers as `Int`
(or `Nat` where the source value is always non-negative); functions that
`raise ValueError` are modelled with `Except`.
-/

namespace MidiGen

/-- The twelve pitch-class names; `NOTE_NAMES` in `create_notes.py` (the same
list is re-declared locally as `note_names` in every other script). -/
def NOTE_NAMES : List String :=
  let sharp := fun (s : String) => s ++ "#"
  ["C", sharp "C", "D", sharp "D", "E", "F", sharp "F", "G", sharp "G", "A", sharp "A", "B"]

/-- The distinct `ValueError` kinds raised by the generators, named after the
spec's error taxonomy (§7). -/
inductive NoteErr where
  | invalidFormat
  | invalidName
  | outOfRange
  | invalidTriad
  | invalidKey
  deriving DecidableEq, Repr

deriving instance DecidableEq for Except

/-- Membership in the regex character class `[A-G]`. -/
def isNoteLetter (c : Char) : Bool := 'A' ≤ c && c ≤ 'G'

/-- Greedily read a maximal run of decimal digits (the regex `\d+`),
accumulating their value; returns the value and the unconsumed rest. -/
def readDigits : List Char → Nat → Nat × List Char
  | c :: cs, acc =>
    if c.isDigit then readDigits cs (acc * 10 + (c.toNat - 48)) else (acc, c :: cs)
  | [], acc => (acc, [])

/-- Match the octave group `-?\d+` at the head of the input: fails unless at
least one digit follows the optional sign (backtracking over `-?` cannot help,
since `-` can never start `\d+`). Returns the signed value and the rest. -/
def matchOctave : List Char → Option (Int × List Char)
  | [] => none
  | c :: cs =>
    if c = '-' then
      match cs with
      | [] => none
      | d :: ds =>
        if d.isDigit then
          let p := readDigits (d :: ds) 0
          some (-(p.1 : Int), p.2)
        else none
    else if c.isDigit then
      let p := readDigits (c :: cs) 0
      some ((p.1 : Int), p.2)
    else none

/-- Model of `re.match(r'([A-G]#?)(-?\d+)', s)` as used by the note and chord
creation functions: the pattern is matched at the start of the string only, so
trailing characters are permitted. Returns group 1 (the note name), the
integer value of group 2 (the octave), and the unconsumed rest. If the
optional `#` is present but no octave follows it, backtracking retries group 1
without the `#`, which then also fails (`#` cannot start `-?\d+`). -/
def matchNoteName : List Char → Option (String × Int × List Char)
  | [] => none
  | c :: rest =>
    if isNoteLetter c then
      match rest with
      | [] => none
      | c2 :: r2 =>
        if c2 = '#' then
          match matchOctave r2 with
          | some (o, rem) => some (String.mk [c, '#'], o, rem)
          | none => none
        else
          match matchOctave (c2 :: r2) with
          | some (o, rem) => some (String.mk [c], o, rem)
          | none => none
    else none

/-- `xs.index(nm)` on a list of strings: the first index at which `nm` occurs,
`none` modelling the `ValueError` Python raises when it is absent. -/
def indexInAux (nm : String) : List String → Nat → Option Nat
  | [], _ => none
  | s :: rest, i => if s = nm then some i else indexInAux nm rest (i + 1)

/-- The pitch resolution steps shared by `create_note_midi_ableton_final`
(`offset = 2`, lines 26–46 of `create_notes.py`) and
`create_note_midi_standard` (`offset = 1`, lines 108–128): regex parse,
`NOTE_NAMES.index(note_name)`, `midi = (octave + offset) * 12 + note_index`,
then the 0–127 range check. -/
def resolve_midi (offset : Int) (s : String) : Except NoteErr Int :=
  match matchNoteName s.data with
  | none => .error .invalidFormat
  | some (nm, octave, _) =>
    match indexInAux nm NOTE_NAMES 0 with
    | none => .error .invalidName
    | some idx =>
      let midi := (octave + offset) * 12 + (idx : Int)
      if midi < 0 ∨ midi > 127 then .error .outOfRange
      else .ok midi

/-- The pitch computation of lines 26–42 of `create_notes.py` *before* the
range check (`midi = (octave + 2) * 12 + note_index` for the Ableton
convention): used to state out-of-range hypotheses. -/
def computed_midi (offset : Int) (s : String) : Option Int :=
  match matchNoteName s.data with
  | none => none
  | some (nm, octave, _) =>
    match indexInAux nm NOTE_NAMES 0 with
    | none => none
    | some idx => some ((octave + offset) * 12 + (idx : Int))

/-- Decimal digit characters of `n`, most significant first (fuel-structured
so that it reduces definitionally; the fuel `n + 1` always suffices since
`n / 10 < n` for `n > 0`). -/
def natDigitsAux : Nat → Nat → List Char
  | 0, _ => []
  | fuel + 1, n =>
    if n = 0 then [] else natDigitsAux fuel (n / 10) ++ [Char.ofNat (48 + n % 10)]

/-- Decimal rendering of a natural number. -/
def natToChars (k : Nat) : List Char :=
  if k = 0 then [Char.ofNat 48] else natDigitsAux (k + 1) k

/-- Python `f"{i}"` for an integer: optional `-` sign followed by digits. -/
def intToChars (i : Int) : List Char :=
  if i < 0 then '-' :: natToChars i.natAbs else natToChars i.toNat

/-- `midi_to_ableton_notation` in `create_chords.py` (lines 241–249):
`note_names[midi % 12]` followed by the octave `midi // 12 - 1`. (Despite its
name, the `- 1` octave offset inverts the *standard* `+1` parsing formula.) -/
def midi_to_ableton_name (midi : Nat) : String :=
  String.mk ((NOTE_NAMES.getD (midi % 12) "").data ++ intToChars ((midi : Int) / 12 - 1))

/-- `midi_to_standard_notation` in `create_chords.py` (lines 251–260):
`note_names[midi % 12]` followed by the octave `midi // 12 - 2`. (Despite its
name, the `- 2` octave offset inverts the *Ableton* `+2` parsing formula.) -/
def midi_to_standard_name (midi : Nat) : String :=
  String.mk ((NOTE_NAMES.getD (midi % 12) "").data ++ intToChars ((midi : Int) / 12 - 2))

/-- Decimal string of a natural number. -/
def natStr (n : Nat) : String := String.mk (natToChars n)

/-- Python `f"{n:02d}"`: zero-pad to width 2. -/
def pad2 (n : Nat) : String := if n < 10 then "0" ++ natStr n else natStr n

/-- Python `f"{n:03d}"`: zero-pad to width 3. -/
def pad3 (n : Nat) : String :=
  if n < 10 then "00" ++ natStr n else if n < 100 then "0" ++ natStr n else natStr n

/-- One MIDI track event together with its delta time, covering exactly the
messages the generators emit (`MetaMessage`/`Message` appends). -/
inductive Ev where
  | trackName (nm : String) (dt : Nat)
  | setTempo (tempo dt : Nat)
  | timeSig (num den cpc n32 dt : Nat)
  | noteOn (note : Int) (vel dt : Nat)
  | noteOff (note : Int) (vel dt : Nat)
  | endTrack (dt : Nat)
  deriving DecidableEq, Repr

/-- A single MIDI track: the ordered event list the scripts append to. -/
abbrev Track := List Ev

/-- `mido.bpm2tempo(bpm)`, microseconds per beat. Modelled from the spec: the
`mido` library is outside this repository; the claims only use that the value
is a function of `bpm` (all scripts pass `bpm = 120`, giving 500000). -/
def bpm2tempo (bpm : Nat) : Nat := 60000000 / bpm

/-- Delta time carried by an event. -/
def Ev.delta : Ev → Nat
  | .trackName _ dt => dt
  | .setTempo _ dt => dt
  | .timeSig _ _ _ _ dt => dt
  | .noteOn _ _ dt => dt
  | .noteOff _ _ dt => dt
  | .endTrack dt => dt

/-- Is the event a note-on? -/
def Ev.isOn : Ev → Bool
  | .noteOn _ _ _ => true
  | _ => false

/-- Is the event a note-off? -/
def Ev.isOff : Ev → Bool
  | .noteOff _ _ _ => true
  | _ => false

/-- Events of a track paired with their absolute times (running sum of the
delta times, starting from `t`). -/
def absEvents : Track → Nat → List (Ev × Nat)
  | [], _ => []
  | e :: es, t => (e, t + e.delta) :: absEvents es (t + e.delta)

/-- `create_note_midi_ableton_final` (lines 15–95 of `create_notes.py`): parse
the display name under the Ableton `+2` convention, range-check, build the
six-event track, and save `f"{file_number:02d} {ableton_display_name}.mid"`.
Returns the `(filename, track)` pair that `mid.save` writes; the `Except`
errors model the raised `ValueError`s. -/
def create_note_midi_ableton_final (display_name : String)
    (file_number duration_ticks bpm : Nat) : Except NoteErr (String × Track) :=
  match resolve_midi 2 display_name with
  | .error e => .error e
  | .ok midi =>
    .ok (pad2 file_number ++ " " ++ display_name ++ ".mid",
      [ .trackName ("Note " ++ display_name) 0,
        .setTempo (bpm2tempo bpm) 0,
        .timeSig 4 4 24 8 0,
        .noteOn midi 64 0,
        .noteOff midi 64 duration_ticks,
        .endTrack 0 ])

/-- `create_note_midi_standard` (lines 97–176 of `create_notes.py`): as the
Ableton variant but with the `+1` octave offset, a `" (Standard)"` suffix on
the track name and a `_standard` suffix on the filename. -/
def create_note_midi_standard (display_name : String)
    (file_number duration_ticks bpm : Nat) : Except NoteErr (String × Track) :=
  match resolve_midi 1 display_name with
  | .error e => .error e
  | .ok midi =>
    .ok (pad2 file_number ++ " " ++ display_name ++ "_standard.mid",
      [ .trackName ("Note " ++ display_name ++ " (Standard)") 0,
        .setTempo (bpm2tempo bpm) 0,
        .timeSig 4 4 24 8 0,
        .noteOn midi 64 0,
        .noteOff midi 64 duration_ticks,
        .endTrack 0 ])

/-- The per-entry loop of `generate_ableton_range` (lines 255–279 of
`create_notes.py`, `include_track_names=True` path): entries are numbered by
their position starting at 1, each is created via
`create_note_midi_ableton_final`, and a `ValueError` is caught, printed as a
`"Skipping ..."` notice, and the loop continues with the next entry. Returns
(written files, skip notices), both in entry order. -/
def run_batch_aux (duration_ticks : Nat) : Nat → List String → List (String × Track) × List String
  | _, [] => ([], [])
  | k, e :: rest =>
    let r := run_batch_aux duration_ticks (k + 1) rest
    match create_note_midi_ableton_final e k duration_ticks 120 with
    | .ok f => (f :: r.1, r.2)
    | .error _ => (r.1, ("Skipping " ++ e) :: r.2)

/-- The batch loop started at file number 1. -/
def run_batch (duration_ticks : Nat) (entries : List String) :
    List (String × Track) × List String :=
  run_batch_aux duration_ticks 1 entries

/-- ASCII lowercase of one character (Python `str.lower` on the ASCII
strings used here). -/
def lowerChar (c : Char) : Char :=
  if 'A' ≤ c && c ≤ 'Z' then Char.ofNat (c.toNat + 32) else c

/-- Python `s.lower()` for the ASCII strings used by the scripts. -/
def lowerStr (s : String) : String := String.mk (s.data.map lowerChar)

/-- The triad dispatch of `create_chord_triad_midi` (lines 152–170 of
`create_chords.py`): `triad_type.lower()` selects the third/fifth semitone
offsets; any other tag raises the invalid-triad-type `ValueError` (`none`). -/
def triad_offsets (triad_type : String) : Option (Int × Int) :=
  if lowerStr triad_type = "major" then some (4, 7)
  else if lowerStr triad_type = "minor" then some (3, 7)
  else if lowerStr triad_type = "diminished" then some (3, 6)
  else if lowerStr triad_type = "augmented" then some (4, 8)
  else none

/-- The pitch computation of `create_chord_triad_midi` (lines 129–176): parse
the root under the `+2` convention, compute
`root_midi = (octave + 2) * 12 + root_index`, add the triad offsets, then
range-check all three chord notes. -/
def create_chord_pitches (root_note triad_type : String) : Except NoteErr (Int × Int × Int) :=
  match matchNoteName root_note.data with
  | none => .error .invalidFormat
  | some (nm, octave, _) =>
    match indexInAux nm NOTE_NAMES 0 with
    | none => .error .invalidName
    | some idx =>
      let root_midi := (octave + 2) * 12 + (idx : Int)
      match triad_offsets triad_type with
      | none => .error .invalidTriad
      | some o =>
        if root_midi < 0 ∨ root_midi > 127 ∨ root_midi + o.1 < 0 ∨ root_midi + o.1 > 127 ∨
            root_midi + o.2 < 0 ∨ root_midi + o.2 > 127 then .error .outOfRange
        else .ok (root_midi, root_midi + o.1, root_midi + o.2)

/-- `create_chord_triad_midi` (lines 117–239 of `create_chords.py`): resolve
the three chord pitches, build the ten-event track (three simultaneous
note-ons at velocities 64/60/56, three note-offs with delta
`duration_ticks`,0,0), and save `f"{file_number:03d} {root_note} {triad_type}.mid"`. -/
def create_chord_triad_midi (root_note triad_type : String)
    (file_number duration_ticks bpm : Nat) : Except NoteErr (String × Track) :=
  match create_chord_pitches root_note triad_type with
  | .error e => .error e
  | .ok p =>
    .ok (pad3 file_number ++ " " ++ root_note ++ " " ++ triad_type ++ ".mid",
      [ .trackName (root_note ++ " " ++ triad_type) 0,
        .setTempo (bpm2tempo bpm) 0,
        .timeSig 4 4 24 8 0,
        .noteOn p.1 64 0,
        .noteOn p.2.1 60 0,
        .noteOn p.2.2 56 0,
        .noteOff p.1 64 duration_ticks,
        .noteOff p.2.1 60 0,
        .noteOff p.2.2 56 0,
        .endTrack 0 ])

/-- The `KEY_SIGNATURES` table of `create_chords.py` (lines 15–115):
key name, tonality, and the seven chords of the key in progression order. -/
def KEY_SIGNATURES : List (String × String × List String) :=
  [ ("C Major", "major",
      ["C Major", "D Minor", "E Minor", "F Major", "G Major", "A Minor", "B Diminished"]),
    ("C# Major", "major",
      ["C# Major", "D# Minor", "F Minor", "F# Major", "G# Major", "A# Minor", "C Diminished"]),
    ("D Major", "major",
      ["D Major", "E Minor", "F# Minor", "G Major", "A Major", "B Minor", "C# Diminished"]),
    ("D# Major", "major",
      ["D# Major", "F Minor", "G Minor", "G# Major", "A# Major", "C Minor", "D Diminished"]),
    ("E Major", "major",
      ["E Major", "F# Minor", "G# Minor", "A Major", "B Major", "C# Minor", "D# Diminished"]),
    ("F Major", "major",
      ["F Major", "G Minor", "A Minor", "A# Major", "C Major", "D Minor", "E Diminished"]),
    ("F# Major", "major",
      ["F# Major", "G# Minor", "A# Minor", "B Major", "C# Major", "D# Minor", "F Diminished"]),
    ("G Major", "major",
      ["G Major", "A Minor", "B Minor", "C Major", "D Major", "E Minor", "F# Diminished"]),
    ("G# Major", "major",
      ["G# Major", "A# Minor", "C Minor", "C# Major", "D# Major", "F Minor", "G Diminished"]),
    ("A Major", "major",
      ["A Major", "B Minor", "C# Minor", "D Major", "E Major", "F# Minor", "G# Diminished"]),
    ("A# Major", "major",
      ["A# Major", "C Minor", "D Minor", "D# Major", "F Major", "G Minor", "A Diminished"]),
    ("B Major", "major",
      ["B Major", "C# Minor", "D# Minor", "E Major", "F# Major", "G# Minor", "A# Diminished"]),
    ("C Minor", "minor",
      ["C Minor", "D Diminished", "Eb Major", "F Minor", "G Minor", "Ab Major", "Bb Major"]),
    ("C# Minor", "minor",
      ["C# Minor", "D# Diminished", "E Major", "F# Minor", "G# Minor", "A Major", "B Major"]),
    ("D Minor", "minor",
      ["D Minor", "E Diminished", "F Major", "G Minor", "A Minor", "Bb Major", "C Major"]),
    ("D# Minor", "minor",
      ["D# Minor", "F Diminished", "Gb Major", "G# Minor", "A# Minor", "B Major", "C# Major"]),
    ("E Minor", "minor",
      ["E Minor", "F# Diminished", "G Major", "A Minor", "B Minor", "C Major", "D Major"]),
    ("F Minor", "minor",
      ["F Minor", "G Diminished", "Ab Major", "Bb Minor", "C Minor", "Db Major", "Eb Major"]),
    ("F# Minor", "minor",
      ["F# Minor", "G# Diminished", "A Major", "B Minor", "C# Minor", "D Major", "E Major"]),
    ("G Minor", "minor",
      ["G Minor", "A Diminished", "Bb Major", "C Minor", "D Minor", "Eb Major", "F Major"]),
    ("G# Minor", "minor",
      ["G# Minor", "A# Diminished", "B Major", "C# Minor", "D# Minor", "E Major", "F# Major"]),
    ("A Minor", "minor",
      ["A Minor", "B Diminished", "C Major", "D Minor", "E Minor", "F Major", "G Major"]),
    ("A# Minor", "minor",
      ["A# Minor", "C Diminished", "Db Major", "Eb Minor", "F Minor", "Gb Major", "Ab Major"]),
    ("B Minor", "minor",
      ["B Minor", "C# Diminished", "D Major", "E Minor", "F# Minor", "G Major", "A Major"]) ]

/-- Dictionary lookup `KEY_SIGNATURES[key]` (`none` models the `KeyError`
guard `key_signature not in KEY_SIGNATURES`). -/
def lookupKey (key : String) : List (String × String × List String) → Option (String × List String)
  | [] => none
  | (k, t, cs) :: rest => if k = key then some (t, cs) else lookupKey key rest

/-- The index of the first space character of a string, if any. -/
def firstSpaceIdx : List Char → Option Nat
  | [] => none
  | c :: rest => if c = ' ' then some 0 else (firstSpaceIdx rest).map (· + 1)

/-- The chord-string parsing of `generate_key_chords` (lines 462–490 of
`create_chords.py`): the flat roots `Ab/Bb/Db/Eb/Gb` map to their sharp names
with `triad_type = chord[3:]`; otherwise the string is split at its first
space. (A chord string with no space would leave the previous iteration's
values in place in the source — that case never occurs in `KEY_SIGNATURES`
and is modelled here as `("", "")`.) -/
def parse_chord_name (chord : String) : String × String :=
  let cs := chord.data
  if cs.take 2 = ['A', 'b'] then ("G#", String.mk (cs.drop 3))
  else if cs.take 2 = ['B', 'b'] then ("A#", String.mk (cs.drop 3))
  else if cs.take 2 = ['D', 'b'] then ("C#", String.mk (cs.drop 3))
  else if cs.take 2 = ['E', 'b'] then ("D#", String.mk (cs.drop 3))
  else if cs.take 2 = ['G', 'b'] then ("F#", String.mk (cs.drop 3))
  else match firstSpaceIdx cs with
    | some i => (String.mk (cs.take i), String.mk (cs.drop (i + 1)))
    | none => ("", "")

/-- The flat-name alias table `alt_names` of `generate_key_chords`
(line 513). -/
def altName (nm : String) : Option String :=
  if nm = "Ab" then some "G#" else if nm = "Bb" then some "A#"
  else if nm = "Db" then some "C#" else if nm = "Eb" then some "D#"
  else if nm = "Gb" then some "F#" else none

/-- One planned chord entry of `generate_key_chords`:
`(file_counter, root_note_ableton, triad_type, root_midi, octave)`. -/
structure ChordEntry where
  idx : Nat
  root : String
  triad : String
  midi : Int
  octave : Int
  deriving DecidableEq, Repr

/-- The root-index lookup of `generate_key_chords` (lines 508–517):
`note_names.index` with the `alt_names` fallback. -/
def keyRootIndex (nm : String) : Option Nat :=
  match indexInAux nm NOTE_NAMES 0 with
  | some i => some i
  | none =>
    match altName nm with
    | some nm2 => indexInAux nm2 NOTE_NAMES 0
    | none => none

/-- Chord entry numbering of `generate_key_chords` (lines 493–523 of
`create_chords.py`): walk the `(octave, root, triad)` combinations in loop
order, look up the root index (with the `alt_names` fallback, an unknown name
raising a `ValueError`), compute `root_midi = (octave + 2) * 12 + root_index`
and assign `file_counter` sequentially — there is *no* sort by pitch. -/
def key_chords_number (counter : Nat) : List (Int × String × String) →
    Except NoteErr (List ChordEntry)
  | [] => .ok []
  | (oct, nm, triad) :: rest =>
    match keyRootIndex nm with
    | none => .error .invalidName
    | some idx =>
      match key_chords_number (counter + 1) rest with
      | .error e => .error e
      | .ok l =>
        .ok (⟨counter, nm ++ String.mk (intToChars oct), triad,
              (oct + 2) * 12 + (idx : Int), oct⟩ :: l)

/-- `generate_key_chords` planning stage: look up the key, parse its chord
strings, and enumerate entries for octaves `3, 4, …, 3 + octaves - 1` (the
source's `start_octave` is 3 in both branches of its `if`), each octave
running through the key's chords in progression order. -/
def generate_key_chords_plan (key : String) (octaves : Nat) :
    Except NoteErr (List ChordEntry) :=
  match lookupKey key KEY_SIGNATURES with
  | none => .error .invalidKey
  | some (_, chords) =>
    let cd := chords.map parse_chord_name
    let octs := (List.range octaves).map (fun i => (3 : Int) + (i : Int))
    key_chords_number 1 (List.flatten (octs.map (fun oct => cd.map (fun p => (oct, p.1, p.2)))))

/-- The note parsing of the fixed-table scripts (`pianist_notes.py` lines
46–55, `vbassist_notes.py` lines 79–88, `beatmaker_notes.py`,
`playbeat_notes.py`, `usynth_notes.py`, `vguitarist_notes.py`,
`s-horns_notes.py`, `drummer_notes.py`, `subcraft_notes.py`):
`note_name = file_note[:-1]`, `octave = int(file_note[-1])`,
`note_names.index(note_name)`, `midi = (octave + 2) * 12 + note_index`.
The `Except` errors model the `IndexError`/`ValueError` these lines raise —
uncaught in every one of these scripts. -/
def slice_parse_midi (file_note : String) : Except NoteErr Int :=
  match file_note.data.getLast? with
  | none => .error .invalidFormat
  | some c =>
    if c.isDigit then
      match indexInAux (String.mk file_note.data.dropLast) NOTE_NAMES 0 with
      | none => .error .invalidName
      | some idx => .ok (((c.toNat - 48 : Nat) + 2 : Int) * 12 + (idx : Int))
    else .error .invalidFormat

/-- The first pass of the table scripts (building `notes_with_midi`): parse
every entry in order; with no `try` around the loop, the first error aborts
the whole run before any file is written. -/
def table_parse_all : List String → Except NoteErr (List (String × Int))
  | [] => .ok []
  | e :: rest =>
    match slice_parse_midi e with
    | .error err => .error err
    | .ok m =>
      match table_parse_all rest with
      | .error err => .error err
      | .ok l => .ok ((e, m) :: l)

/-- Insert an entry into a list sorted by MIDI number, after all entries that
compare `≤`. Folding this over the input left-to-right yields exactly the
ascending stable order of Python's `list.sort(key=lambda x: x["midi"])`. -/
def insertByMidi (x : String × Int) : List (String × Int) → List (String × Int)
  | [] => [x]
  | y :: ys => if y.2 ≤ x.2 then y :: insertByMidi x ys else x :: y :: ys

/-- `notes_with_midi.sort(key=lambda x: x["midi"])`: stable ascending sort. -/
def sortByMidi (l : List (String × Int)) : List (String × Int) :=
  l.foldl (fun acc x => insertByMidi x acc) []

/-- The track built by the fixed-table scripts (e.g. `pianist_notes.py` lines
90–111, identically in `spotlight_notes.py`, `vbassist_notes.py`, …): name,
tempo, time signature, one note-on/note-off pair, end of track. -/
def table_note_track (track_name : String) (midi : Int) (dur : Nat) : Track :=
  [ .trackName track_name 0,
    .setTempo (bpm2tempo 120) 0,
    .timeSig 4 4 24 8 0,
    .noteOn midi 64 0,
    .noteOff midi 64 dur,
    .endTrack 0 ]

/-- The track of `subcraft_notes.py` (lines 84–110): two identical
note-on/note-off pairs of the same pitch. -/
def subcraft_track (track_name : String) (midi : Int) (dur : Nat) : Track :=
  [ .trackName track_name 0,
    .setTempo (bpm2tempo 120) 0,
    .timeSig 4 4 24 8 0,
    .noteOn midi 64 0,
    .noteOff midi 64 dur,
    .noteOn midi 64 0,
    .noteOff midi 64 dur,
    .endTrack 0 ]

/-- The `include_track_names=False` fallback of `generate_ableton_range`
(lines 264–271 of `create_notes.py`): a bare note-on/note-off pair, no
metadata and no end-of-track marker. -/
def fallback_track (midi : Int) (dur : Nat) : Track :=
  [ .noteOn midi 64 0, .noteOff midi 64 dur ]

/-- Count of note-on events at pitch `p`. -/
def onCount (p : Int) : Track → Nat
  | [] => 0
  | .noteOn q _ _ :: es => (if q = p then 1 else 0) + onCount p es
  | _ :: es => onCount p es

/-- Count of note-off events at pitch `p`. -/
def offCount (p : Int) : Track → Nat
  | [] => 0
  | .noteOff q _ _ :: es => (if q = p then 1 else 0) + offCount p es
  | _ :: es => offCount p es

/-- Every note-on is matched by exactly one note-off at the same pitch and no
event is unpaired: for each pitch the total on/off counts agree, and in every
prefix the note-offs never outnumber the note-ons, so each note-off pairs
with a distinct earlier note-on — and, delta times being non-negative, the
note-off then falls no earlier than its note-on. -/
def WellPaired (tr : Track) : Prop :=
  ∀ p : Int, onCount p tr = offCount p tr ∧
    ∀ n, offCount p (tr.take n) ≤ onCount p (tr.take n)

/-- A file system: map from filename to file content. -/
def FS := String → Option Track

/-- `mid.save(filename)`: create the file or overwrite an existing one. -/
def writeFile (fs : FS) (f : String × Track) : FS :=
  fun n => if n = f.1 then some f.2 else fs n

/-- Write a list of files in order. -/
def writeAll (files : List (String × Track)) (fs : FS) : FS :=
  files.foldl writeFile fs

/-- The last content written to filename `n` by a list of file writes. -/
def lastWrite (n : String) : List (String × Track) → Option Track
  | [] => none
  | f :: rest =>
    match lastWrite n rest with
    | some tr => some tr
    | none => if n = f.1 then some f.2 else none

/-- `midi_to_frequency` (lines 178–180 of `create_notes.py`):
`440.0 * (2.0 ** ((midi_note - 69) / 12.0))`, modelled over the reals. -/
noncomputable def midi_to_frequency (midi_note : ℤ) : ℝ :=
  440 * (2 : ℝ) ^ (((midi_note : ℝ) - 69) / 12)

/-- Full match of the note grammar `[A-G]#?-?\d+` against the octave part:
an optional minus sign followed by at least one digit, and nothing else. -/
def octaveShape (l : List Char) : Bool :=
  match l with
  | [] => false
  | c :: cs =>
    if c = '-' then !cs.isEmpty && cs.all Char.isDigit
    else c.isDigit && cs.all Char.isDigit

/-- Full match of the note grammar `[A-G]#?-?\d+` against an entire string,
written as a direct shape check, independent of the parser. -/
def grammarShape (l : List Char) : Bool :=
  match l with
  | [] => false
  | c :: rest =>
    match rest with
    | [] => false
    | c2 :: r2 =>
      if c2 = '#' then isNoteLetter c && octaveShape r2
      else isNoteLetter c && octaveShape (c2 :: r2)
  

/-- Some prefix of the string fully matches the note grammar (the success
condition of Python's `re.match`, which anchors only at the start). -/
def hasGrammarStart (s : String) : Bool := s.data.inits.any grammarShape

end MidiGen

namespace MidiGen

example : resolve_midi 2 "C3" = .ok 60 := by decide
example : resolve_midi 1 "C4" = .ok 60 := by decide
example : resolve_midi 2 "C3x" = .ok 60 := by decide
example : resolve_midi 2 "Cb3" = .error .invalidFormat := by decide
example : resolve_midi 2 "B#3" = .error .invalidName := by decide
example : resolve_midi 2 "C20" = .error .outOfRange := by decide
example : midi_to_ableton_name 60 = "C4" := by decide
example : midi_to_standard_name 60 = "C3" := by decide
example : midi_to_standard_name 0 = "C-2" := by decide
example : create_chord_pitches "C3" "Major" = .ok (60, 64, 67) := by decide
example : slice_parse_midi "C#1" = .ok 37 := by decide
example : slice_parse_midi "A#2" = .ok 58 := by decide
example : slice_parse_midi "C10" = .error .invalidName := by decide
example : slice_parse_midi "C-1" = .error .invalidName := by decide
example : sortByMidi [("A#2", 58), ("C#1", 37)] = [("C#1", 37), ("A#2", 58)] := by decide
example : hasGrammarStart "C3x" = true := by decide
example : hasGrammarStart "x3" = false := by decide
example :
    generate_key_chords_plan "C# Major" 1 =
      .ok [ ⟨1, "C#3", "Major", 61, 3⟩, ⟨2, "D#3", "Minor", 63, 3⟩,
            ⟨3, "F3", "Minor", 65, 3⟩, ⟨4, "F#3", "Major", 66, 3⟩,
            ⟨5, "G#3", "Major", 68, 3⟩, ⟨6, "A#3", "Minor", 70, 3⟩,
            ⟨7, "C3", "Diminished", 60, 3⟩ ] := by decide

/-- C1 bounded check, stated over `Fin 128` so it is decidable. -/
theorem roundtrip_fin :
    ∀ m : Fin 128,
      resolve_midi 1 (midi_to_ableton_name m.val) = .ok (m.val : Int) ∧
      resolve_midi 2 (midi_to_standard_name m.val) = .ok (m.val : Int) := by
  decide

/-- **C1**: for every MIDI integer `m ∈ [0,127]` and a fixed octave-offset
convention, converting `m` to its display name and parsing that name back
under the same convention yields `m` again. Under the standard `+1` parsing
convention the display octave is `m // 12 - 1` (the formula the source names
`midi_to_ableton_notation`), and under the Ableton `+2` parsing convention it
is `m // 12 - 2` (the formula the source names `midi_to_standard_notation`);
each display/parse pair of the same convention round-trips. -/
theorem claim_roundtrip (m : Nat) (h : m ≤ 127) :
    resolve_midi 1 (midi_to_ableton_name m) = .ok (m : Int) ∧
    resolve_midi 2 (midi_to_standard_name m) = .ok (m : Int) :=
  roundtrip_fin ⟨m, Nat.lt_succ_of_le h⟩

/-- Witness for C1 at `m = 60`. -/
theorem claim_roundtrip_witness :
    resolve_midi 1 (midi_to_ableton_name 60) = .ok 60 ∧
    resolve_midi 2 (midi_to_standard_name 60) = .ok 60 :=
  claim_roundtrip 60 (by decide)

/-- **C8**: `midi_to_frequency 69 = 440` exactly, and
`midi ↦ 440 * 2 ^ ((midi - 69) / 12)` is strictly monotonically increasing
in its input. -/
theorem claim_frequency :
    midi_to_frequency 69 = 440 ∧
    ∀ a b : ℤ, a < b → midi_to_frequency a < midi_to_frequency b := by
  constructor
  · have h0 : (((69 : ℤ) : ℝ) - 69) / 12 = 0 := by norm_num
    unfold midi_to_frequency
    rw [h0, Real.rpow_zero, mul_one]
  · intro a b hab
    unfold midi_to_frequency
    apply mul_lt_mul_of_pos_left _ (by norm_num : (0 : ℝ) < 440)
    rw [Real.rpow_lt_rpow_left_iff one_lt_two]
    have hcast : (a : ℝ) < (b : ℝ) := by exact_mod_cast hab
    linarith

/-- Witness for C8: strict increase from MIDI 60 to MIDI 69. -/
theorem claim_frequency_witness :
    midi_to_frequency 60 < midi_to_frequency 69 ∧ midi_to_frequency 69 = 440 :=
  ⟨claim_frequency.2 60 69 (by decide), claim_frequency.1⟩

/-- **C3**: for root "C3" (pitch 60) the chord builder yields exactly
(60,64,67), (60,63,67), (60,63,66), (60,64,68) for Major, Minor, Diminished
and Augmented; in general every successful build returns the root pitch plus
the fixed semitone offsets {0,4,7}, {0,3,7}, {0,3,6}, {0,4,8} respectively,
and an unrecognized triad-type tag fails with the invalid-triad-type error. -/
theorem claim_chord_triads :
    (create_chord_pitches "C3" "Major" = .ok (60, 64, 67) ∧
     create_chord_pitches "C3" "Minor" = .ok (60, 63, 67) ∧
     create_chord_pitches "C3" "Diminished" = .ok (60, 63, 66) ∧
     create_chord_pitches "C3" "Augmented" = .ok (60, 64, 68)) ∧
    (∀ root triad r t f, create_chord_pitches root triad = .ok (r, t, f) →
      (lowerStr triad = "major" → t = r + 4 ∧ f = r + 7) ∧
      (lowerStr triad = "minor" → t = r + 3 ∧ f = r + 7) ∧
      (lowerStr triad = "diminished" → t = r + 3 ∧ f = r + 6) ∧
      (lowerStr triad = "augmented" → t = r + 4 ∧ f = r + 8) ∧
      0 ≤ r ∧ t ≤ 127 ∧ f ≤ 127) ∧
    (∀ root triad v, computed_midi 2 root = some v →
      lowerStr triad ≠ "major" → lowerStr triad ≠ "minor" →
      lowerStr triad ≠ "diminished" → lowerStr triad ≠ "augmented" →
      create_chord_pitches root triad = .error .invalidTriad) := by
  refine ⟨⟨by decide, by decide, by decide, by decide⟩, ?_, ?_⟩
  · intro root triad r t f h
    unfold create_chord_pitches at h
    cases hmn : matchNoteName root.data with
    | none => simp only [hmn] at h; simp at h
    | some p =>
      obtain ⟨nm, oct, rest⟩ := p
      simp only [hmn] at h
      cases hidx : indexInAux nm NOTE_NAMES 0 with
      | none => simp only [hidx] at h; simp at h
      | some idx =>
        simp only [hidx] at h
        cases hto : triad_offsets triad with
        | none => simp only [hto] at h; simp at h
        | some o =>
          obtain ⟨o1, o2⟩ := o
          simp only [hto] at h
          split at h
          · simp at h
          · rename_i hrange
            simp only [Except.ok.injEq, Prod.mk.injEq] at h
            obtain ⟨hr, ht, hf⟩ := h
            unfold triad_offsets at hto
            refine ⟨?_, ?_, ?_, ?_, ?_⟩
            · intro htag
              rw [htag] at hto
              simp at hto
              omega
            · intro htag
              rw [htag] at hto
              simp at hto
              omega
            · intro htag
              rw [htag] at hto
              simp at hto
              omega
            · intro htag
              rw [htag] at hto
              simp at hto
              omega
            · omega
  · intro root triad v hv h1 h2 h3 h4
    unfold computed_midi at hv
    unfold create_chord_pitches
    cases hmn : matchNoteName root.data with
    | none => simp only [hmn] at hv; simp at hv
    | some p =>
      obtain ⟨nm, oct, rest⟩ := p
      simp only [hmn] at hv
      cases hidx : indexInAux nm NOTE_NAMES 0 with
      | none => simp only [hidx] at hv; simp at hv
      | some idx =>
        have hto : triad_offsets triad = none := by
          unfold triad_offsets
          rw [if_neg h1, if_neg h2, if_neg h3, if_neg h4]
        simp [hmn, hidx, hto]

/-- The resolver rejects a computed MIDI value outside [0,127]. -/
theorem resolve_out_of_range (e : String) (v : Int) (hv : computed_midi 2 e = some v)
    (hout : v < 0 ∨ 127 < v) :
    resolve_midi 2 e = .error .outOfRange := by
  unfold computed_midi at hv
  unfold resolve_midi
  cases hmn : matchNoteName e.data with
  | none => simp only [hmn] at hv; simp at hv
  | some p =>
    obtain ⟨nm, oct, rest⟩ := p
    simp only [hmn] at hv
    cases hidx : indexInAux nm NOTE_NAMES 0 with
    | none => simp only [hidx] at hv; simp at hv
    | some idx =>
      simp only [hidx] at hv
      simp only [Option.some.injEq] at hv
      simp only [hmn, hidx]
      rw [if_pos (by omega)]

/-- `readDigits` consumes a prefix of digit characters. -/
theorem readDigits_split (l : List Char) :
    ∀ acc n rest, readDigits l acc = (n, rest) →
      ∃ ds, l = ds ++ rest ∧ ds.all Char.isDigit = true := by
  induction l with
  | nil =>
    intro acc n rest h
    simp only [readDigits, Prod.mk.injEq] at h
    obtain ⟨h1, h2⟩ := h
    exact ⟨[], by simpa using h2, rfl⟩
  | cons c cs ih =>
    intro acc n rest h
    simp only [readDigits] at h
    by_cases hd : c.isDigit
    · rw [if_pos hd] at h
      obtain ⟨ds, hds, hall⟩ := ih _ _ _ h
      exact ⟨c :: ds, by simp [hds], by simp [hall, hd]⟩
    · rw [if_neg hd] at h
      simp only [Prod.mk.injEq] at h
      obtain ⟨h1, h2⟩ := h
      exact ⟨[], by simpa using h2, rfl⟩

/-- A successful `matchOctave` consumed an octave-shaped prefix. -/
theorem matchOctave_split (l : List Char) (o : Int) (rest : List Char)
    (h : matchOctave l = some (o, rest)) :
    ∃ q, l = q ++ rest ∧ octaveShape q = true := by
  cases l with
  | nil => simp [matchOctave] at h
  | cons c cs =>
    by_cases hneg : c = '-'
    · cases cs with
      | nil => simp [matchOctave, hneg] at h
      | cons d ds =>
        by_cases hd : d.isDigit
        · simp only [matchOctave, hneg, hd, if_true, if_pos, Option.some.injEq,
            Prod.mk.injEq] at h
          obtain ⟨ho, hrest⟩ := h
          have hunfold : readDigits (d :: ds) 0 = readDigits ds (0 * 10 + (d.toNat - 48)) := by
            simp [readDigits, hd]
          obtain ⟨ds1, hds1, hall⟩ := readDigits_split ds (0 * 10 + (d.toNat - 48)) _ _ rfl
          refine ⟨'-' :: d :: ds1, ?_, ?_⟩
          · subst hneg
            rw [← hrest, hunfold]
            simpa using hds1
          · simp [octaveShape, hd, hall]
        · simp [matchOctave, hneg, hd] at h
    · by_cases hd : c.isDigit
      · simp only [matchOctave, if_neg hneg, hd, if_true, Option.some.injEq,
          Prod.mk.injEq] at h
        obtain ⟨ho, hrest⟩ := h
        have hunfold : readDigits (c :: cs) 0 = readDigits cs (0 * 10 + (c.toNat - 48)) := by
          simp [readDigits, hd]
        obtain ⟨ds1, hds1, hall⟩ := readDigits_split cs (0 * 10 + (c.toNat - 48)) _ _ rfl
        refine ⟨c :: ds1, ?_, ?_⟩
        · rw [← hrest, hunfold]
          simpa using hds1
        · simp [octaveShape, hneg, hd, hall]
      · simp [matchOctave, hneg, hd] at h

/-- The head of an octave-shaped string is never `#`. -/
theorem octaveShape_head (c : Char) (cs : List Char) (h : octaveShape (c :: cs) = true) :
    c ≠ '#' := by
  intro hc
  subst hc
  have h1 : ¬(('#' : Char) = '-') := by decide
  have h2 : ('#' : Char).isDigit = false := by decide
  simp [octaveShape, h1, h2] at h

/-- A successful `matchNoteName` consumed a prefix that fully matches the
note grammar. -/
theorem matchNoteName_split (l : List Char) (nm : String) (o : Int) (rest : List Char)
    (h : matchNoteName l = some (nm, o, rest)) :
    ∃ p, l = p ++ rest ∧ grammarShape p = true := by
  cases l with
  | nil => simp [matchNoteName] at h
  | cons c cs =>
    by_cases hl : isNoteLetter c
    · cases cs with
      | nil => simp [matchNoteName, hl] at h
      | cons c2 r2 =>
        by_cases hh : c2 = '#'
        · cases hmo : matchOctave r2 with
          | none => simp [matchNoteName, hl, hh, hmo] at h
          | some pr =>
            obtain ⟨o2, rem⟩ := pr
            simp only [matchNoteName, hl, hh, if_true, hmo, Option.some.injEq,
              Prod.mk.injEq] at h
            obtain ⟨hnm, ho, hrest⟩ := h
            obtain ⟨q, hq, hqs⟩ := matchOctave_split r2 o2 rem hmo
            refine ⟨c :: c2 :: q, ?_, ?_⟩
            · rw [← hrest]
              simpa using hq
            · subst hh
              simp [grammarShape, hl, hqs]
        · cases hmo : matchOctave (c2 :: r2) with
          | none => simp [matchNoteName, hl, hh, hmo] at h
          | some pr =>
            obtain ⟨o2, rem⟩ := pr
            simp only [matchNoteName, hl, if_true, if_neg hh, hmo, Option.some.injEq,
              Prod.mk.injEq] at h
            obtain ⟨hnm, ho, hrest⟩ := h
            obtain ⟨q, hq, hqs⟩ := matchOctave_split (c2 :: r2) o2 rem hmo
            refine ⟨c :: q, ?_, ?_⟩
            · rw [← hrest]
              simpa using hq
            · cases q with
              | nil => simp [octaveShape] at hqs
              | cons q0 q1 =>
                have hq0 : q0 ≠ '#' := octaveShape_head q0 q1 hqs
                simp [grammarShape, hl, hq0, hqs]
    · simp [matchNoteName, hl] at h

/-- **C5 counterexample**: the input "C3x" does not match the note grammar as
a whole, yet the resolver accepts it via its prefix "C3" (Python `re.match`
anchors only at the start), and the creation function produces a file for it
instead of failing with the invalid-format error. -/
theorem claim_strict_grammar_cex :
    grammarShape "C3x".data = false ∧
    resolve_midi 2 "C3x" = .ok 60 ∧
    create_note_midi_ableton_final "C3x" 1 3840 120 =
      .ok ("01 C3x.mid",
        [ .trackName "Note C3x" 0, .setTempo 500000 0, .timeSig 4 4 24 8 0,
          .noteOn 60 64 0, .noteOff 60 64 3840, .endTrack 0 ]) := by
  refine ⟨by decide, by decide, by decide⟩

/-- **C5 (amended)**: an input string *no prefix of which* matches the
note-name grammar `[A-G](#)?(-?\d+)` fails with the invalid-note-format
error, and no file is produced for it; an input with a valid prefix followed
by trailing characters (e.g. "C3x") is instead accepted and parsed by that
prefix, because the source uses `re.match`, which does not anchor at the end
of the string. -/
theorem claim_no_valid_start_invalid_format (s : String)
    (hs : hasGrammarStart s = false) :
    resolve_midi 2 s = .error .invalidFormat ∧
    ∀ num dur bpm, create_note_midi_ableton_final s num dur bpm = .error .invalidFormat := by
  have hmn : matchNoteName s.data = none := by
    cases hmnn : matchNoteName s.data with
    | none => rfl
    | some p =>
      obtain ⟨nm, o, rest⟩ := p
      obtain ⟨pfx, hpfx, hshape⟩ := matchNoteName_split s.data nm o rest hmnn
      have htrue : hasGrammarStart s = true := by
        unfold hasGrammarStart
        rw [List.any_eq_true]
        refine ⟨pfx, ?_, hshape⟩
        rw [List.mem_inits]
        exact ⟨rest, hpfx.symm⟩
      rw [htrue] at hs
      exact absurd hs (by simp)
  refine ⟨?_, ?_⟩
  · unfold resolve_midi
    simp [hmn]
  · intro num dur bpm
    unfold create_note_midi_ableton_final resolve_midi
    simp [hmn]

/-- Witness for the amended C5 at the ungrammatical input "x3". -/
theorem claim_no_valid_start_invalid_format_witness :
    resolve_midi 2 "x3" = .error .invalidFormat ∧
    create_note_midi_ableton_final "x3" 1 3840 120 = .error .invalidFormat :=
  ⟨(claim_no_valid_start_invalid_format "x3" (by decide)).1,
   (claim_no_valid_start_invalid_format "x3" (by decide)).2 1 3840 120⟩

/-- An entry whose computed (pre-check) MIDI value lies outside [0,127] makes
`create_note_midi_ableton_final` fail with the out-of-range error. -/
theorem create_out_of_range (e : String) (v : Int) (hv : computed_midi 2 e = some v)
    (hout : v < 0 ∨ 127 < v) (k d b : Nat) :
    create_note_midi_ableton_final e k d b = .error .outOfRange := by
  unfold create_note_midi_ableton_final
  simp only [resolve_out_of_range e v hv hout]

/-- **C2**: an entry whose computed MIDI value is below 0 or at least 128
fails with the out-of-range error and contributes no file; the batch loop of
`generate_ableton_range` catches the error, records a skip notice for the
entry, and still processes every other entry of the batch at its original
file number (no abort of the batch). -/
theorem claim_out_of_range_skip (pre post : List String) (e : String) (v : Int)
    (hv : computed_midi 2 e = some v) (hout : v < 0 ∨ 127 < v) (d : Nat) :
    (∀ k b, create_note_midi_ableton_final e k d b = .error .outOfRange) ∧
    ∀ k,
      (run_batch_aux d k (pre ++ e :: post)).1 =
        (run_batch_aux d k pre).1 ++ (run_batch_aux d (k + pre.length + 1) post).1 ∧
      (run_batch_aux d k (pre ++ e :: post)).2 =
        (run_batch_aux d k pre).2 ++
          ("Skipping " ++ e) :: (run_batch_aux d (k + pre.length + 1) post).2 := by
  refine ⟨fun k b => create_out_of_range e v hv hout k d b, ?_⟩
  induction pre with
  | nil =>
    intro k
    have hc := create_out_of_range e v hv hout k d 120
    simp [run_batch_aux, hc]
  | cons a pre ih =>
    intro k
    obtain ⟨ih1, ih2⟩ := ih (k + 1)
    have harith : k + (a :: pre).length + 1 = k + 1 + pre.length + 1 := by
      simp [List.length_cons]; omega
    rw [harith]
    cases hca : create_note_midi_ableton_final a k d 120 with
    | ok f =>
      constructor
      · show (run_batch_aux d k (a :: (pre ++ e :: post))).1 = _
        simp only [run_batch_aux, hca]
        simpa using ih1
      · show (run_batch_aux d k (a :: (pre ++ e :: post))).2 = _
        simp only [run_batch_aux, hca]
        simpa using ih2
    | error err =>
      constructor
      · show (run_batch_aux d k (a :: (pre ++ e :: post))).1 = _
        simp only [run_batch_aux, hca]
        simpa using ih1
      · show (run_batch_aux d k (a :: (pre ++ e :: post))).2 = _
        simp only [run_batch_aux, hca]
        simpa using ih2

/-- Witness for C2: in the batch ["C20", "C3"], the out-of-range entry "C20"
(computed MIDI 264) is skipped with a notice and "C3" is still written. -/
theorem claim_out_of_range_skip_witness :
    create_note_midi_ableton_final "C20" 1 3840 120 = .error .outOfRange ∧
    (run_batch_aux 3840 1 ("C20" :: ["C3"])).1 =
      (run_batch_aux 3840 1 []).1 ++ (run_batch_aux 3840 2 ["C3"]).1 ∧
    (run_batch_aux 3840 1 ("C20" :: ["C3"])).2 =
      (run_batch_aux 3840 1 []).2 ++ ("Skipping " ++ "C20") :: (run_batch_aux 3840 2 ["C3"]).2 :=
  have h := claim_out_of_range_skip [] ["C3"] "C20" 264 (by decide) (by decide) 3840
  ⟨h.1 1 120, (h.2 1).1, (h.2 1).2⟩

/-- Witness for C3: the general part applied at root "C3", triad "Major",
and the invalid-triad part at the unrecognized tag "Sus4". -/
theorem claim_chord_triads_witness :
    ((64 : Int) = 60 + 4 ∧ (67 : Int) = 60 + 7) ∧
    create_chord_pitches "C3" "Sus4" = .error .invalidTriad :=
  ⟨(claim_chord_triads.2.1 "C3" "Major" 60 64 67 (by decide)).1 (by decide),
   claim_chord_triads.2.2 "C3" "Sus4" 60 (by decide) (by decide) (by decide)
     (by decide) (by decide)⟩

/-- **C6**: each sequence emitter deterministically produces exactly this
event order: track-name metadata, tempo metadata, time-signature metadata,
then a note-on for every pitch all at delta time 0, then a matching note-off
for every pitch with all note-offs at the same absolute instant, exactly the
shared duration after the note-ons, then the end-of-track marker. (Both
emitters are pure functions of their inputs, so the output is deterministic.) -/
theorem claim_emitter_order :
    (∀ nm num dur bpm fn tr,
      create_note_midi_ableton_final nm num dur bpm = .ok (fn, tr) →
      ∃ m, resolve_midi 2 nm = .ok m ∧
        tr = [ .trackName ("Note " ++ nm) 0, .setTempo (bpm2tempo bpm) 0,
               .timeSig 4 4 24 8 0, .noteOn m 64 0, .noteOff m 64 dur, .endTrack 0 ] ∧
        ∀ q ∈ absEvents tr 0, (q.1.isOn = true → q.2 = 0) ∧ (q.1.isOff = true → q.2 = dur)) ∧
    (∀ root triad num dur bpm fn tr,
      create_chord_triad_midi root triad num dur bpm = .ok (fn, tr) →
      ∃ r t f, create_chord_pitches root triad = .ok (r, t, f) ∧
        tr = [ .trackName (root ++ " " ++ triad) 0, .setTempo (bpm2tempo bpm) 0,
               .timeSig 4 4 24 8 0, .noteOn r 64 0, .noteOn t 60 0, .noteOn f 56 0,
               .noteOff r 64 dur, .noteOff t 60 0, .noteOff f 56 0, .endTrack 0 ] ∧
        ∀ q ∈ absEvents tr 0, (q.1.isOn = true → q.2 = 0) ∧ (q.1.isOff = true → q.2 = dur)) := by
  constructor
  · intro nm num dur bpm fn tr h
    unfold create_note_midi_ableton_final at h
    cases hres : resolve_midi 2 nm with
    | error e => simp only [hres] at h; simp at h
    | ok m =>
      simp only [hres, Except.ok.injEq, Prod.mk.injEq] at h
      obtain ⟨hfn, htr⟩ := h
      refine ⟨m, rfl, htr.symm, ?_⟩
      subst htr
      intro q hq
      simp only [absEvents, Ev.delta, List.mem_cons, List.not_mem_nil, or_false] at hq
      rcases hq with rfl | rfl | rfl | rfl | rfl | rfl <;>
        simp [Ev.isOn, Ev.isOff]
  · intro root triad num dur bpm fn tr h
    unfold create_chord_triad_midi at h
    cases hres : create_chord_pitches root triad with
    | error e => simp only [hres] at h; simp at h
    | ok p =>
      obtain ⟨r, t, f⟩ := p
      simp only [hres, Except.ok.injEq, Prod.mk.injEq] at h
      obtain ⟨hfn, htr⟩ := h
      refine ⟨r, t, f, rfl, htr.symm, ?_⟩
      subst htr
      intro q hq
      simp only [absEvents, Ev.delta, List.mem_cons, List.not_mem_nil, or_false] at hq
      rcases hq with rfl | rfl | rfl | rfl | rfl | rfl | rfl | rfl | rfl | rfl <;>
        simp [Ev.isOn, Ev.isOff]

/-- Witness for C6: the note emitter at "C3" (MIDI 60, duration 3840). -/
theorem claim_emitter_order_witness :
    ∃ m, resolve_midi 2 "C3" = .ok m ∧
      ([ Ev.trackName "Note C3" 0, Ev.setTempo 500000 0, Ev.timeSig 4 4 24 8 0,
         Ev.noteOn 60 64 0, Ev.noteOff 60 64 3840, Ev.endTrack 0 ] : Track) =
        [ .trackName ("Note " ++ "C3") 0, .setTempo (bpm2tempo 120) 0,
          .timeSig 4 4 24 8 0, .noteOn m 64 0, .noteOff m 64 3840, .endTrack 0 ] ∧
      ∀ q ∈ absEvents
          [ Ev.trackName "Note C3" 0, Ev.setTempo 500000 0, Ev.timeSig 4 4 24 8 0,
            Ev.noteOn 60 64 0, Ev.noteOff 60 64 3840, Ev.endTrack 0 ] 0,
        (q.1.isOn = true → q.2 = 0) ∧ (q.1.isOff = true → q.2 = 3840) :=
  claim_emitter_order.1 "C3" 1 3840 120 "01 C3.mid"
    [ .trackName "Note C3" 0, .setTempo 500000 0, .timeSig 4 4 24 8 0,
      .noteOn 60 64 0, .noteOff 60 64 3840, .endTrack 0 ] (by decide)

/-- A track consisting of metadata, one note-on/note-off pair at the same
pitch, and the end marker is well paired. -/
theorem wp_single (tn : String) (te : Nat) (m : Int) (v dur : Nat) :
    WellPaired [ .trackName tn 0, .setTempo te 0, .timeSig 4 4 24 8 0,
                 .noteOn m v 0, .noteOff m v dur, .endTrack 0 ] := by
  intro p
  constructor
  · simp [onCount, offCount]
  · intro n
    rcases n with _|_|_|_|_|_|n <;>
      simp [onCount, offCount, List.take]

/-- The chord track shape (three note-ons then three note-offs at the same
pitches, in the same order) is well paired. -/
theorem wp_chord_shape (tn : String) (te : Nat) (r t f : Int) (dur : Nat) :
    WellPaired [ .trackName tn 0, .setTempo te 0, .timeSig 4 4 24 8 0,
                 .noteOn r 64 0, .noteOn t 60 0, .noteOn f 56 0,
                 .noteOff r 64 dur, .noteOff t 60 0, .noteOff f 56 0, .endTrack 0 ] := by
  intro p
  constructor
  · simp [onCount, offCount]
  · intro n
    rcases n with _|_|_|_|_|_|_|_|_|_|n <;>
      simp [onCount, offCount, List.take]

/-- **C7**: in every event sequence any of the generators emits, each note-on
at a pitch is matched by exactly one note-off at the same pitch occurring no
earlier (all delta times being non-negative, a later event is never earlier),
and no note-on or note-off is unpaired. -/
theorem claim_note_pairing :
    (∀ nm num dur bpm fn tr,
      create_note_midi_ableton_final nm num dur bpm = .ok (fn, tr) → WellPaired tr) ∧
    (∀ nm num dur bpm fn tr,
      create_note_midi_standard nm num dur bpm = .ok (fn, tr) → WellPaired tr) ∧
    (∀ root triad num dur bpm fn tr,
      create_chord_triad_midi root triad num dur bpm = .ok (fn, tr) → WellPaired tr) ∧
    (∀ tn m dur, WellPaired (table_note_track tn m dur)) ∧
    (∀ tn m dur, WellPaired (subcraft_track tn m dur)) ∧
    (∀ m dur, WellPaired (fallback_track m dur)) := by
  refine ⟨?_, ?_, ?_, ?_, ?_, ?_⟩
  · intro nm num dur bpm fn tr h
    unfold create_note_midi_ableton_final at h
    cases hres : resolve_midi 2 nm with
    | error e => simp only [hres] at h; simp at h
    | ok m =>
      simp only [hres, Except.ok.injEq, Prod.mk.injEq] at h
      obtain ⟨hfn, htr⟩ := h
      subst htr
      exact wp_single _ _ m 64 dur
  · intro nm num dur bpm fn tr h
    unfold create_note_midi_standard at h
    cases hres : resolve_midi 1 nm with
    | error e => simp only [hres] at h; simp at h
    | ok m =>
      simp only [hres, Except.ok.injEq, Prod.mk.injEq] at h
      obtain ⟨hfn, htr⟩ := h
      subst htr
      exact wp_single _ _ m 64 dur
  · intro root triad num dur bpm fn tr h
    unfold create_chord_triad_midi at h
    cases hres : create_chord_pitches root triad with
    | error e => simp only [hres] at h; simp at h
    | ok p =>
      obtain ⟨r, t, f⟩ := p
      simp only [hres, Except.ok.injEq, Prod.mk.injEq] at h
      obtain ⟨hfn, htr⟩ := h
      subst htr
      exact wp_chord_shape _ _ r t f dur
  · intro tn m dur
    exact wp_single tn (bpm2tempo 120) m 64 dur
  · intro tn m dur
    intro p
    constructor
    · simp [subcraft_track, onCount, offCount]
    · intro n
      rcases n with _|_|_|_|_|_|_|_|n <;>
        simp [subcraft_track, onCount, offCount, List.take]
  · intro m dur
    intro p
    constructor
    · simp [fallback_track, onCount, offCount]
    · intro n
      rcases n with _|_|n <;>
        simp [fallback_track, onCount, offCount, List.take]

/-- Witness for C7: the chord track for "C3 Major" is well paired. -/
theorem claim_note_pairing_witness :
    WellPaired
      [ Ev.trackName "C3 Major" 0, Ev.setTempo 500000 0, Ev.timeSig 4 4 24 8 0,
        Ev.noteOn 60 64 0, Ev.noteOn 64 60 0, Ev.noteOn 67 56 0,
        Ev.noteOff 60 64 3840, Ev.noteOff 64 60 0, Ev.noteOff 67 56 0, Ev.endTrack 0 ] :=
  claim_note_pairing.2.2.1 "C3" "Major" 1 3840 120 "001 C3 Major.mid"
    [ .trackName "C3 Major" 0, .setTempo 500000 0, .timeSig 4 4 24 8 0,
      .noteOn 60 64 0, .noteOn 64 60 0, .noteOn 67 56 0,
      .noteOff 60 64 3840, .noteOff 64 60 0, .noteOff 67 56 0, .endTrack 0 ] (by decide)

/-- Membership in `insertByMidi`. -/
theorem insertByMidi_mem (x a : String × Int) (l : List (String × Int)) :
    a ∈ insertByMidi x l ↔ a = x ∨ a ∈ l := by
  induction l with
  | nil => simp [insertByMidi]
  | cons y ys ih =>
    unfold insertByMidi
    by_cases hle : y.2 ≤ x.2
    · rw [if_pos hle]
      simp only [List.mem_cons, ih]
      tauto
    · rw [if_neg hle]
      simp only [List.mem_cons]

/-- `insertByMidi` preserves ascending order of the MIDI keys. -/
theorem insertByMidi_pairwise (x : String × Int) (l : List (String × Int))
    (h : List.Pairwise (fun a b => a.2 ≤ b.2) l) :
    List.Pairwise (fun a b => a.2 ≤ b.2) (insertByMidi x l) := by
  induction l with
  | nil => simp [insertByMidi]
  | cons y ys ih =>
    rw [List.pairwise_cons] at h
    obtain ⟨hy, hys⟩ := h
    unfold insertByMidi
    by_cases hle : y.2 ≤ x.2
    · rw [if_pos hle]
      rw [List.pairwise_cons]
      refine ⟨?_, ih hys⟩
      intro a ha
      rcases (insertByMidi_mem x a ys).mp ha with rfl | ha
      · exact hle
      · exact hy a ha
    · rw [if_neg hle]
      have hxy : x.2 ≤ y.2 := le_of_not_le hle
      rw [List.pairwise_cons]
      refine ⟨?_, List.pairwise_cons.mpr ⟨hy, hys⟩⟩
      intro a ha
      rcases List.mem_cons.mp ha with rfl | ha
      · exact hxy
      · exact le_trans hxy (hy a ha)

/-- `insertByMidi` grows the length by one. -/
theorem insertByMidi_length (x : String × Int) (xs : List (String × Int)) :
    (insertByMidi x xs).length = xs.length + 1 := by
  induction xs with
  | nil => rfl
  | cons y ys ih =>
    unfold insertByMidi
    by_cases hle : y.2 ≤ x.2
    · rw [if_pos hle]
      simp [ih]
    · rw [if_neg hle]
      simp

/-- The stable sort produces an ascending list. -/
theorem sortByMidi_pairwise (l : List (String × Int)) :
    List.Pairwise (fun a b : String × Int => a.2 ≤ b.2) (sortByMidi l) := by
  unfold sortByMidi
  suffices hgen : ∀ acc, List.Pairwise (fun a b : String × Int => a.2 ≤ b.2) acc →
      List.Pairwise (fun a b : String × Int => a.2 ≤ b.2)
        (l.foldl (fun acc x => insertByMidi x acc) acc) by
    exact hgen [] (by simp)
  induction l with
  | nil => intro acc hacc; simpa using hacc
  | cons x xs ih =>
    intro acc hacc
    exact ih (insertByMidi x acc) (insertByMidi_pairwise x acc hacc)

/-- The stable sort preserves length. -/
theorem sortByMidi_length (l : List (String × Int)) :
    (sortByMidi l).length = l.length := by
  unfold sortByMidi
  suffices hgen : ∀ acc, (l.foldl (fun acc x => insertByMidi x acc) acc).length
      = acc.length + l.length by
    simpa using hgen []
  induction l with
  | nil => intro acc; simp
  | cons x xs ih =>
    intro acc
    simp only [List.foldl_cons, List.length_cons]
    rw [ih (insertByMidi x acc), insertByMidi_length]
    omega

/-- **C4 (amended)**: the fixed-table batch drivers and the range drivers
sort their entries by resolved MIDI pitch ascending and then number the files
1..n in that order (in particular the table with "A#2" and the lower "C#1"
gives "C#1" index 1); the key-signature chord driver, however, numbers its
entries in key-progression order per octave, *not* by pitch (see the
counterexample). -/
theorem claim_batch_numbering :
    (∀ l : List (String × Int),
      (List.enumFrom 1 (sortByMidi l)).map Prod.fst = List.range' 1 l.length ∧
      List.Pairwise (fun a b : String × Int => a.2 ≤ b.2) (sortByMidi l)) ∧
    (table_parse_all ["A#2", "C#1"] = .ok [("A#2", 58), ("C#1", 37)] ∧
     List.enumFrom 1 (sortByMidi [("A#2", 58), ("C#1", 37)]) =
       [(1, ("C#1", 37)), (2, ("A#2", 58))]) := by
  refine ⟨?_, by decide, by decide⟩
  intro l
  constructor
  · rw [List.enumFrom_map_fst, sortByMidi_length]
  · exact sortByMidi_pairwise l

/-- **C4 counterexample**: the key-signature chord driver
(`generate_key_chords`) does not assign indices in ascending pitch order: for
key "C# Major" with one octave, entry 1 ("C# Major") has root pitch 61 while
entry 7 ("C Diminished") has the lower root pitch 60. -/
theorem claim_batch_numbering_cex :
    generate_key_chords_plan "C# Major" 1 =
      .ok [ ⟨1, "C#3", "Major", 61, 3⟩, ⟨2, "D#3", "Minor", 63, 3⟩,
            ⟨3, "F3", "Minor", 65, 3⟩, ⟨4, "F#3", "Major", 66, 3⟩,
            ⟨5, "G#3", "Major", 68, 3⟩, ⟨6, "A#3", "Minor", 70, 3⟩,
            ⟨7, "C3", "Diminished", 60, 3⟩ ] ∧
    ¬ List.Pairwise (fun a b : ChordEntry => a.midi ≤ b.midi)
        [ ⟨1, "C#3", "Major", 61, 3⟩, ⟨2, "D#3", "Minor", 63, 3⟩,
          ⟨3, "F3", "Minor", 65, 3⟩, ⟨4, "F#3", "Major", 66, 3⟩,
          ⟨5, "G#3", "Major", 68, 3⟩, ⟨6, "A#3", "Minor", 70, 3⟩,
          ⟨7, "C3", "Diminished", 60, 3⟩ ] := by
  refine ⟨by decide, by decide⟩

/-- Applying a list of file writes gives, at each name, the last content
written to that name, or the prior content if the name is never written. -/
theorem writeAll_apply (files : List (String × Track)) (fs : FS) (n : String) :
    writeAll files fs n =
      match lastWrite n files with
      | some tr => some tr
      | none => fs n := by
  induction files generalizing fs with
  | nil => simp [writeAll, lastWrite]
  | cons f rest ih =>
    show writeAll rest (writeFile fs f) n = _
    rw [ih (writeFile fs f)]
    have heq : lastWrite n (f :: rest) =
        match lastWrite n rest with
        | some tr => some tr
        | none => if n = f.1 then some f.2 else none := rfl
    rw [heq]
    cases hl : lastWrite n rest with
    | some tr => simp [hl]
    | none =>
      by_cases hn : n = f.1
      · simp [hl, writeFile, hn]
      · simp [hl, writeFile, hn]

/-- A name among the written filenames has a last write. -/
theorem lastWrite_mem (n : String) (files : List (String × Track))
    (h : n ∈ files.map Prod.fst) : ∃ tr, lastWrite n files = some tr := by
  induction files with
  | nil => simp at h
  | cons f rest ih =>
    have heq : lastWrite n (f :: rest) =
        match lastWrite n rest with
        | some tr => some tr
        | none => if n = f.1 then some f.2 else none := rfl
    rw [heq]
    cases hl : lastWrite n rest with
    | some tr => exact ⟨tr, rfl⟩
    | none =>
      simp only [List.map_cons, List.mem_cons] at h
      rcases h with h | h
      · exact ⟨f.2, by simp [h]⟩
      · obtain ⟨tr, htr⟩ := ih h
        rw [htr] at hl
        cases hl

/-- **C9**: a generator run is a pure function of its input table, so two
runs with identical tables produce identical files: writing the run's files a
second time leaves the file system unchanged (re-running overwrites each
generated file with identical content), and the content stored at every
generated filename is independent of the file system's previous state. -/
theorem claim_rerun_idempotent (entries : List String) (d : Nat) (fs : FS) :
    writeAll (run_batch d entries).1 (writeAll (run_batch d entries).1 fs)
      = writeAll (run_batch d entries).1 fs ∧
    ∀ fs2 n, n ∈ (run_batch d entries).1.map Prod.fst →
      writeAll (run_batch d entries).1 fs n = writeAll (run_batch d entries).1 fs2 n := by
  constructor
  · funext n
    have h1 := writeAll_apply (run_batch d entries).1 fs n
    have h2 := writeAll_apply (run_batch d entries).1 (writeAll (run_batch d entries).1 fs) n
    rw [h2, h1]
    cases hl : lastWrite n (run_batch d entries).1 with
    | some tr => simp
    | none => simp
  · intro fs2 n hn
    obtain ⟨tr, htr⟩ := lastWrite_mem n (run_batch d entries).1 hn
    rw [writeAll_apply, writeAll_apply, htr]

/-- Witness for C9 at the one-entry table ["C3"]: re-writing is idempotent on
the empty file system, and the content at the generated filename does not
depend on the previous state. -/
theorem claim_rerun_idempotent_witness :
    writeAll (run_batch 3840 ["C3"]).1
        (writeAll (run_batch 3840 ["C3"]).1 (fun _ => none))
      = writeAll (run_batch 3840 ["C3"]).1 (fun _ => none) ∧
    writeAll (run_batch 3840 ["C3"]).1 (fun _ => none) "01 C3.mid"
      = writeAll (run_batch 3840 ["C3"]).1 (fun _ => some []) "01 C3.mid" :=
  have h := claim_rerun_idempotent ["C3"] 3840 (fun _ => none)
  ⟨h.1, h.2 (fun _ => some []) "01 C3.mid" (by decide)⟩

/-- A successful `NOTE_NAMES.index` lookup implies membership. -/
theorem indexInAux_mem {nm : String} : ∀ (xs : List String) (i j : Nat),
    indexInAux nm xs i = some j → nm ∈ xs := by
  intro xs
  induction xs with
  | nil => intro i j h; simp [indexInAux] at h
  | cons s rest ih =>
    intro i j h
    have heq : indexInAux nm (s :: rest) i =
        if s = nm then some i else indexInAux nm rest (i + 1) := rfl
    rw [heq] at h
    by_cases hs : s = nm
    · exact hs ▸ List.mem_cons_self _ _
    · rw [if_neg hs] at h
      exact List.mem_cons_of_mem _ (ih (i + 1) j h)

/-- No pitch-class name contains a minus sign or a digit, so a candidate name
containing one is never found by `note_names.index`. -/
theorem indexIn_none_of_bad_char (l : List Char)
    (hbad : ∃ c ∈ l, c = '-' ∨ c.isDigit = true) :
    indexInAux (String.mk l) NOTE_NAMES 0 = none := by
  cases h : indexInAux (String.mk l) NOTE_NAMES 0 with
  | none => rfl
  | some j =>
    have hmem : String.mk l ∈ NOTE_NAMES := indexInAux_mem NOTE_NAMES 0 j h
    have hclean : ∀ s ∈ NOTE_NAMES, ∀ c ∈ s.data, ¬(c = '-' ∨ c.isDigit = true) := by decide
    obtain ⟨c, hc, hcbad⟩ := hbad
    exact absurd hcbad (hclean (String.mk l) hmem c hc)

/-- **C10**: in the table-driven scripts that parse a note string by slicing
off its last character (`note_name = file_note[:-1]`,
`octave = int(file_note[-1])`), parsing agrees with the regex-based Ableton
resolution exactly when the octave is one digit 0–9; an entry whose octave
part is negative or has two or more digits makes the parse raise (the sliced
name retains a `-` or a digit and is not in `note_names`), and since these
scripts wrap no `try` around the loop, one such entry aborts the entire run
with an error before any file is written (no skip-and-continue). -/
theorem claim_slice_parse :
    (∀ nm ∈ NOTE_NAMES, ∀ k : Fin 10,
      slice_parse_midi (nm ++ String.mk [Char.ofNat (48 + k.val)]) =
        match computed_midi 2 (nm ++ String.mk [Char.ofNat (48 + k.val)]) with
        | some v => .ok v
        | none => .error .invalidFormat) ∧
    (∀ nm cs, nm ∈ NOTE_NAMES → cs ≠ [] → cs.all Char.isDigit = true →
      slice_parse_midi (String.mk (nm.data ++ '-' :: cs)) = .error .invalidName) ∧
    (∀ nm cs, nm ∈ NOTE_NAMES → 2 ≤ cs.length → cs.all Char.isDigit = true →
      slice_parse_midi (String.mk (nm.data ++ cs)) = .error .invalidName) ∧
    (∀ entries e err0, e ∈ entries → slice_parse_midi e = .error err0 →
      ∃ err, table_parse_all entries = .error err) := by
  refine ⟨by decide, ?_, ?_, ?_⟩
  · intro nm cs hnm hne hdig
    obtain ⟨c0, cs2, rfl⟩ : ∃ c0 cs2, cs = c0 :: cs2 := by
      cases cs with
      | nil => exact absurd rfl hne
      | cons a b => exact ⟨a, b, rfl⟩
    unfold slice_parse_midi
    obtain ⟨lc, hlc⟩ : ∃ lc, (c0 :: cs2).getLast? = some lc := by
      cases hgl : (c0 :: cs2).getLast? with
      | none => exact absurd (List.getLast?_eq_none_iff.mp hgl) (by simp)
      | some lc => exact ⟨lc, rfl⟩
    have hlast : (nm.data ++ '-' :: c0 :: cs2).getLast? = some lc := by
      rw [List.getLast?_append, List.getLast?_cons_cons, hlc]
      rfl
    have hlcdig : lc.isDigit = true := by
      have := List.mem_of_getLast?_eq_some hlc
      exact (List.all_eq_true.mp hdig) lc this
    have hdrop : (nm.data ++ '-' :: c0 :: cs2).dropLast =
        nm.data ++ '-' :: (c0 :: cs2).dropLast := by
      rw [List.dropLast_append_cons, List.dropLast_cons₂]
    simp only [hlast, hlcdig, if_true]
    rw [hdrop]
    rw [indexIn_none_of_bad_char _ ⟨'-', by simp, Or.inl rfl⟩]
  · intro nm cs hnm hlen hdig
    obtain ⟨c0, c1, cs2, rfl⟩ : ∃ c0 c1 cs2, cs = c0 :: c1 :: cs2 := by
      cases cs with
      | nil => simp at hlen
      | cons a b =>
        cases b with
        | nil => simp at hlen
        | cons a2 b2 => exact ⟨a, a2, b2, rfl⟩
    unfold slice_parse_midi
    obtain ⟨lc, hlc⟩ : ∃ lc, (c1 :: cs2).getLast? = some lc := by
      cases hgl : (c1 :: cs2).getLast? with
      | none => exact absurd (List.getLast?_eq_none_iff.mp hgl) (by simp)
      | some lc => exact ⟨lc, rfl⟩
    have hlast : (nm.data ++ c0 :: c1 :: cs2).getLast? = some lc := by
      rw [List.getLast?_append, List.getLast?_cons_cons, hlc]
      rfl
    have hlcdig : lc.isDigit = true := by
      have hmem := List.mem_of_getLast?_eq_some hlc
      exact (List.all_eq_true.mp hdig) lc (List.mem_cons_of_mem c0 hmem)
    have hc0dig : c0.isDigit = true := (List.all_eq_true.mp hdig) c0 (by simp)
    have hdrop : (nm.data ++ c0 :: c1 :: cs2).dropLast =
        nm.data ++ c0 :: (c1 :: cs2).dropLast := by
      rw [List.dropLast_append_cons, List.dropLast_cons₂]
    simp only [hlast, hlcdig, if_true]
    rw [hdrop]
    rw [indexIn_none_of_bad_char _ ⟨c0, by simp, Or.inr hc0dig⟩]
  · intro entries
    induction entries with
    | nil => intro e err0 hmem hse; simp at hmem
    | cons a rest ih =>
      intro e err0 hmem hse
      rcases List.mem_cons.mp hmem with rfl | hmem
      · exact ⟨err0, by simp [table_parse_all, hse]⟩
      · cases hsa : slice_parse_midi a with
        | error err1 => exact ⟨err1, by simp [table_parse_all, hsa]⟩
        | ok m =>
          obtain ⟨err, herr⟩ := ih e err0 hmem hse
          exact ⟨err, by simp [table_parse_all, hsa, herr]⟩

/-- Witness for C10: "C3" parses correctly by slicing; "C10" and "C-1" abort
a run containing them before any file is written. -/
theorem claim_slice_parse_witness :
    (slice_parse_midi ("C" ++ String.mk [Char.ofNat (48 + (3 : Fin 10).val)]) =
      match computed_midi 2 ("C" ++ String.mk [Char.ofNat (48 + (3 : Fin 10).val)]) with
      | some v => .ok v
      | none => .error .invalidFormat) ∧
    slice_parse_midi (String.mk ("C".data ++ ['1', '0'])) = .error .invalidName ∧
    slice_parse_midi (String.mk ("C".data ++ '-' :: ['1'])) = .error .invalidName ∧
    ∃ err, table_parse_all ["C10", "C3"] = .error err :=
  ⟨claim_slice_parse.1 "C" (by decide) 3,
   claim_slice_parse.2.2.1 "C" ['1', '0'] (by decide) (by decide) (by decide),
   claim_slice_parse.2.1 "C" ['1'] (by decide) (by decide) (by decide),
   claim_slice_parse.2.2.2 ["C10", "C3"] "C10" .invalidName (by decide) (by decide)⟩

end MidiGen
